import Mathlib

/-!
Shallow embedding of `src/vesc_driver/src/vesc_interface.cpp` (the VESC serial
driver core): the receive-side scan/resynchronization loop `VescInterface::Impl::rxThread`,
the lifecycle operations `connect` / `isConnected`, and the outbound `send` path.

Bytes are modelled as `Nat`, buffers as `List Nat`.  The packet codec
(`VescPacketFactory::createPacket`) is an external collaborator whose code is not
part of the provided sources; it is modelled abstractly as a function from a byte
window to a `CodecResult`, matching the contract the driver relies on (decoded
packet with its consumed length, or "need K more bytes" with K > 0, or a
definitive decode error with K = 0).  Callback invocations are modelled as lists
of events, in the order the callbacks fire.
-/

namespace VescDriver

/-- Modelled from the spec: the reserved start-of-frame byte for small frames.
The constant lives in `vesc_packet.hpp`, outside the provided sources; the spec
only requires two distinct reserved first-byte values. -/
def VESC_SOF_VAL_SMALL_FRAME : Nat := 2

/-- Modelled from the spec: the reserved start-of-frame byte for large frames. -/
def VESC_SOF_VAL_LARGE_FRAME : Nat := 3

/-- Modelled from the spec: the minimum possible frame size, used as the default
byte request when the scanner has no in-progress candidate. -/
def VESC_MIN_FRAME_SIZE : Nat := 5

/-- Start-of-frame check, from `vesc_interface.cpp` lines 85-86. -/
def isSOF (b : Nat) : Bool :=
  b == VESC_SOF_VAL_SMALL_FRAME || b == VESC_SOF_VAL_LARGE_FRAME

/-- Outcome of one `VescPacketFactory::createPacket` call: either a decoded
packet that consumed `consumed` bytes of the window, or no packet together with
the `bytes_needed` output parameter (positive: need more data; zero: definitive
decode error) and the error message. -/
inductive CodecResult where
  | ok (consumed : Nat)
  | err (bytesNeeded : Nat) (msg : String)
deriving DecidableEq

/-- Abstract packet codec: maps the byte window `[iter, buffer.end())` to the
result of a decode attempt. -/
abbrev Codec := List Nat → CodecResult

/-- One invocation of the error callback, by call site in `rxThread`:
`resyncLeading` is the "unknown data leading valid frame, discarding n bytes"
warning (lines 94-99); `codecError` forwards the codec's message (line 112);
`resyncDiscard` is the end-of-pass "discarding n bytes" warning (lines 125-129);
`serialError` is the read error report (lines 146-156); `midFrameTimeout` is the
"read timout in the middle of a frame" warning (lines 160-162). -/
inductive ErrEvent where
  | resyncLeading (count : Nat)
  | codecError (msg : String)
  | resyncDiscard (count : Nat)
  | serialError (ec : Nat)
  | midFrameTimeout
deriving DecidableEq

/-- State after the inner scan loop of `rxThread` (lines 83-117): the packets
dispatched (each recorded as its consumed byte window, in dispatch order), the
error-callback events, the unscanned suffix of the buffer (the bytes from the
final `iter` on), the final `iter - iter_begin` distance, and the `bytes_needed`
value on loop exit. -/
structure GoState where
  packets : List (List Nat)
  errors : List ErrEvent
  remaining : List Nat
  skipped : Nat
  bytesNeeded : Nat
deriving DecidableEq

/-- The inner scan loop of `rxThread` (lines 83-122), recursing on the suffix of
the buffer that starts at `iter`; `skipped` is the running `iter - iter_begin`
distance.  The `fuel` argument is only a termination device: the caller passes
`buffer.length + 1`, which is never exhausted as long as every decoded packet
consumes at least one byte (guaranteed by the codec contract).  The empty-suffix
case also folds in line 120-122: when `iter` reaches the end of the buffer,
`bytes_needed` resets to the minimum frame size. -/
def scanGo (codec : Codec) : Nat → List Nat → Nat → GoState
  | 0, remaining, skipped => ⟨[], [], remaining, skipped, VESC_MIN_FRAME_SIZE⟩
  | _ + 1, [], skipped => ⟨[], [], [], skipped, VESC_MIN_FRAME_SIZE⟩
  | fuel + 1, b :: rest, skipped =>
    if isSOF b then
      match codec (b :: rest) with
      | CodecResult.ok consumed =>
        let g := scanGo codec fuel (List.drop consumed (b :: rest)) 0
        ⟨List.take consumed (b :: rest) :: g.packets,
          (if 0 < skipped then [ErrEvent.resyncLeading skipped] else []) ++ g.errors,
          g.remaining, g.skipped, g.bytesNeeded⟩
      | CodecResult.err k msg =>
        if 0 < k then
          ⟨[], [], b :: rest, skipped, k⟩
        else
          let g := scanGo codec fuel rest (skipped + 1)
          ⟨g.packets, ErrEvent.codecError msg :: g.errors,
            g.remaining, g.skipped, g.bytesNeeded⟩
    else
      scanGo codec fuel rest (skipped + 1)

/-- Result of one full scan pass over the accumulation buffer (lines 79-131):
dispatched packets, error events, the buffer left after
`buffer.erase(buffer.begin(), iter)`, the `bytes_needed` value for the following
read, the final scan position `iter` (as an index into the pass's input buffer),
and the final `iter - iter_begin` distance. -/
structure ScanOutcome where
  packets : List (List Nat)
  errors : List ErrEvent
  buffer : List Nat
  bytesNeeded : Nat
  iterPos : Nat
  skipped : Nat
deriving DecidableEq

/-- The final `iter_begin` index of a scan pass: the last confirmed frame end. -/
def ScanOutcome.iterBeginPos (o : ScanOutcome) : Nat := o.iterPos - o.skipped

/-- One scan pass of `rxThread` over the accumulation buffer (lines 77-131):
skip the scan entirely when the buffer is empty (line 79), otherwise run the
inner loop, emit the end-of-pass discard warning when `iter_begin < iter`
(lines 125-129), and erase the prefix `[buffer.begin(), iter)` (line 130). -/
def scanPass (codec : Codec) (buffer : List Nat) : ScanOutcome :=
  if buffer.isEmpty then
    ⟨[], [], buffer, VESC_MIN_FRAME_SIZE, 0, 0⟩
  else
    let g := scanGo codec (buffer.length + 1) buffer 0
    ⟨g.packets,
      g.errors ++ (if 0 < g.skipped then [ErrEvent.resyncDiscard g.skipped] else []),
      g.remaining,
      g.bytesNeeded,
      buffer.length - g.remaining.length,
      g.skipped⟩

/-- The number of bytes `rxThread` asks the transport for (line 134). -/
def bytesToRead (bytesNeeded : Nat) : Nat := min bytesNeeded 4096

/-- Result of the read-and-append phase of one `rxThread` iteration. -/
structure ReadOutcome where
  buffer : List Nat
  errors : List ErrEvent
deriving DecidableEq

/-- The read-and-append phase of one `rxThread` iteration (lines 136-163):
`chunk` is the byte sequence the `boost::asio::read` call returned and `ecValue`
is the resulting error-code value.  Reports a serial error when the error code
is positive, appends the chunk to the buffer, and reports the mid-frame timeout
warning when a positive request returned no bytes while the buffer is
non-empty. -/
def readPhase (buffer : List Nat) (bytesNeeded : Nat) (chunk : List Nat)
    (ecValue : Nat) : ReadOutcome :=
  let serialErrs := if 0 < ecValue then [ErrEvent.serialError ecValue] else []
  let buf2 := buffer ++ chunk
  let timeoutErrs :=
    if 0 < bytesNeeded ∧ chunk.length = 0 ∧ buf2 ≠ [] then [ErrEvent.midFrameTimeout]
    else []
  ⟨buf2, serialErrs ++ timeoutErrs⟩

/-- Observable outcome of one full `rxThread` loop iteration. -/
structure IterOutcome where
  packets : List (List Nat)
  errors : List ErrEvent
  buffer : List Nat
deriving DecidableEq

/-- One full iteration of the `rxThread` loop (lines 77-166): a scan pass over
the current buffer followed by the read-and-append phase. -/
def rxIteration (codec : Codec) (buffer chunk : List Nat) (ecValue : Nat) :
    IterOutcome :=
  let s := scanPass codec buffer
  let r := readPhase s.buffer s.bytesNeeded chunk ecValue
  ⟨s.packets, s.errors ++ r.errors, r.buffer⟩

/-- Modelled from the spec: a concrete packet codec satisfying the PacketCodec
contract of spec section 6, used to instantiate witnesses and counterexamples
(`vesc_packet.cpp` is outside the provided sources).  Small frames are
`[2, len, payload (len bytes), crc_hi, crc_lo, 3]` with a 16-bit payload sum as
checksum; a window shorter than the frame asks for the missing bytes; a complete
window with a bad checksum or terminator, a window starting with the large-frame
marker, or a window not starting at a marker is a definitive error (K = 0). -/
def demoCodec : Codec := fun w =>
  match w with
  | 2 :: len :: rest =>
    if rest.length + 2 < len + 5 then
      CodecResult.err (len + 5 - (rest.length + 2)) "insufficient data for small frame"
    else
      if rest.get? len = some ((rest.take len).sum / 256 % 256) ∧
          rest.get? (len + 1) = some ((rest.take len).sum % 256) ∧
          rest.get? (len + 2) = some 3 then
        CodecResult.ok (len + 5)
      else
        CodecResult.err 0 "invalid checksum or terminator in small frame"
  | 3 :: _ => CodecResult.err 0 "large frame decoding unsupported"
  | [2] => CodecResult.err 4 "insufficient data for small frame"
  | _ => CodecResult.err 0 "no frame at window start"

/-- Connection-relevant state of a `VescInterface`: whether the serial port is
open, the value of `rx_thread_run_`, and whether the rx thread object exists. -/
structure ConnState where
  portOpen : Bool
  rxThreadRun : Bool
  rxThreadStarted : Bool
deriving DecidableEq

/-- `VescInterface::isConnected` (lines 247-251): delegates to
`serial_port_.is_open()`. -/
def isConnected (st : ConnState) : Bool := st.portOpen

/-- Result of a `connect` call: the state of the object afterwards and the
exception message propagated to the caller, if any. -/
structure ConnectOutcome where
  state : ConnState
  thrown : Option String
deriving DecidableEq

/-- `VescInterface::connect` (lines 200-232).  `openOk` says whether
`serial_port_.open(port)` succeeds, `configOk` whether the subsequent
`set_option` calls all succeed; `openErr` / `configErr` are the corresponding
exception texts.  A successful `open` leaves the port open even when a later
`set_option` throws: the `catch` block (lines 221-225) wraps and rethrows
without closing the port, so the port-open flag persists across that throw. -/
def connect (st : ConnState) (port : String) (openOk configOk : Bool)
    (openErr configErr : String) : ConnectOutcome :=
  if isConnected st then
    ⟨st, some "Already connected to serial port."⟩
  else if !openOk then
    ⟨st, some ("Failed to open the serial port " ++ port ++ " to the VESC. " ++ openErr)⟩
  else if !configOk then
    ⟨⟨true, st.rxThreadRun, st.rxThreadStarted⟩,
      some ("Failed to open the serial port " ++ port ++ " to the VESC. " ++ configErr)⟩
  else
    ⟨⟨true, true, true⟩, none⟩

/-- The message of the `SerialException` built for a short write
(`vesc_interface.cpp` lines 260-262). -/
def shortWriteMsg (written expected : Nat) : String :=
  "Wrote " ++ toString written ++ " bytes, expected " ++ toString expected ++ "."

/-- The wrapping applied by the `catch` block of `send` (lines 264-268). -/
def sendWrapMsg (inner : String) : String :=
  "Failed to open the serial port to the VESC. " ++ inner

/-- Result of a `send` call: the byte counts reported by each `write_some`
call, in order, and the exception message thrown to the caller, if any. -/
structure SendOutcome where
  writeCalls : List Nat
  thrown : Option String
deriving DecidableEq

/-- `VescInterface::send` (lines 253-269).  `written` is the byte count the
single `write_some` call reports.  A short (or long) write raises a
`SerialException` with the short-write message, which the surrounding `catch`
immediately catches and rethrows wrapped in the port-open failure text.  No
error callback is involved and the write is never retried. -/
def send (frame : List Nat) (written : Nat) : SendOutcome :=
  if written ≠ frame.length then
    ⟨[written], some (sendWrapMsg (shortWriteMsg written frame.length))⟩
  else
    ⟨[written], none⟩

/-- The scan loop does nothing on an exhausted buffer: `iter` is at the end, so
`bytes_needed` resets to the minimum frame size. -/
theorem scanGo_nil (codec : Codec) (fuel skipped : Nat) :
    scanGo codec fuel [] skipped = ⟨[], [], [], skipped, VESC_MIN_FRAME_SIZE⟩ := by
  cases fuel <;> simp [scanGo]

/-- A byte that is not a start-of-frame marker is stepped over. -/
theorem scanGo_nonmarker (codec : Codec) (b : Nat) (rest : List Nat)
    (fuel skipped : Nat) (hb : isSOF b = false) :
    scanGo codec (fuel + 1) (b :: rest) skipped =
      scanGo codec fuel rest (skipped + 1) := by
  simp [scanGo, hb]

/-- A marker at which the codec asks for more bytes stops the pass: the loop
breaks with the suffix from the marker intact and `bytes_needed` set to the
codec's request. -/
theorem scanGo_break (codec : Codec) (b : Nat) (rest : List Nat)
    (fuel skipped k : Nat) (msg : String)
    (hb : isSOF b = true) (hc : codec (b :: rest) = CodecResult.err k msg)
    (hk : 0 < k) :
    scanGo codec (fuel + 1) (b :: rest) skipped = ⟨[], [], b :: rest, skipped, k⟩ := by
  simp [scanGo, hb, hc, hk]

/-- A decoded frame at the scan position: the leading-garbage warning fires when
bytes were skipped, the frame is dispatched, and scanning continues after it
with the skip distance reset. -/
theorem scanGo_packet (codec : Codec) (f rest : List Nat) (fuel skipped : Nat)
    (hne : f ≠ []) (hsof : isSOF f.headI = true)
    (hc : codec (f ++ rest) = CodecResult.ok f.length) :
    scanGo codec (fuel + 1) (f ++ rest) skipped =
      ⟨f :: (scanGo codec fuel rest 0).packets,
        (if 0 < skipped then [ErrEvent.resyncLeading skipped] else []) ++
          (scanGo codec fuel rest 0).errors,
        (scanGo codec fuel rest 0).remaining,
        (scanGo codec fuel rest 0).skipped,
        (scanGo codec fuel rest 0).bytesNeeded⟩ := by
  obtain ⟨a, f', rfl⟩ := List.exists_cons_of_ne_nil hne
  simp only [List.headI] at hsof
  rw [List.cons_append] at hc ⊢
  simp only [scanGo, hsof, if_true, hc, List.length_cons, List.take_succ_cons,
    List.drop_succ_cons, List.length_append]
  rw [List.take_left, List.drop_left]

/-- A run of non-marker bytes is scanned straight through, each byte adding one
to the skip distance and consuming one unit of fuel. -/
theorem scanGo_nonmarker_run (codec : Codec) :
    ∀ (g : List Nat) (fuel : Nat) (rem : List Nat) (skipped : Nat),
      (∀ b ∈ g, isSOF b = false) →
      scanGo codec (g.length + fuel) (g ++ rem) skipped =
        scanGo codec fuel rem (skipped + g.length) := by
  intro g
  induction g with
  | nil => intro fuel rem skipped _; simp
  | cons b g' ih =>
    intro fuel rem skipped hg
    have hb : isSOF b = false := hg b (List.mem_cons_self b g')
    have hg' : ∀ x ∈ g', isSOF x = false := fun x hx => hg x (List.mem_cons_of_mem b hx)
    have h1 : (b :: g').length + fuel = (g'.length + fuel) + 1 := by
      simp [List.length_cons]; omega
    rw [h1, List.cons_append,
      scanGo_nonmarker codec b (g' ++ rem) (g'.length + fuel) skipped hb,
      ih fuel rem (skipped + 1) hg']
    congr 1
    simp [List.length_cons]
    omega

/-- The unscanned remainder returned by the scan loop is a suffix of its input:
the loop only ever moves forward. -/
theorem scanGo_suffix (codec : Codec) :
    ∀ (fuel : Nat) (rem : List Nat) (skipped : Nat),
      (scanGo codec fuel rem skipped).remaining <:+ rem := by
  intro fuel
  induction fuel with
  | zero => intro rem skipped; simp [scanGo]
  | succ n ih =>
    intro rem skipped
    match rem with
    | [] => simp [scanGo]
    | b :: rest =>
      cases hb : isSOF b with
      | false =>
        simp only [scanGo, hb, Bool.false_eq_true, if_false]
        exact (ih rest (skipped + 1)).trans (List.suffix_cons b rest)
      | true =>
        cases hc : codec (b :: rest) with
        | ok consumed =>
          simp only [scanGo, hb, if_true, hc]
          exact (ih _ _).trans (List.drop_suffix _ _)
        | err k msg =>
          by_cases hk : 0 < k
          · simp [scanGo, hb, hc, hk]
          · simp only [scanGo, hb, if_true, hc, if_neg hk]
            exact (ih rest (skipped + 1)).trans (List.suffix_cons b rest)

/-- The scan loop never reports a mid-frame timeout: that warning belongs to the
read phase. -/
theorem scanGo_timeout_count (codec : Codec) :
    ∀ (fuel : Nat) (rem : List Nat) (skipped : Nat),
      (scanGo codec fuel rem skipped).errors.count ErrEvent.midFrameTimeout = 0 := by
  intro fuel
  induction fuel with
  | zero => intro rem skipped; simp [scanGo]
  | succ n ih =>
    intro rem skipped
    match rem with
    | [] => simp [scanGo]
    | b :: rest =>
      cases hb : isSOF b with
      | false =>
        simp only [scanGo, hb, Bool.false_eq_true, if_false]
        exact ih rest (skipped + 1)
      | true =>
        cases hc : codec (b :: rest) with
        | ok consumed =>
          simp only [scanGo, hb, if_true, hc]
          rw [List.count_append]
          have h2 := ih (List.drop consumed (b :: rest)) 0
          by_cases hs : 0 < skipped
          · simp only [if_pos hs]
            simpa [List.count_cons] using h2
          · simp only [if_neg hs]
            simpa using h2
        | err k msg =>
          by_cases hk : 0 < k
          · simp [scanGo, hb, hc, hk]
          · simp only [scanGo, hb, if_true, hc, if_neg hk]
            have h2 := ih rest (skipped + 1)
            simpa [List.count_cons] using h2

/-- A decoded frame that ends exactly at the buffer's end: the loop dispatches
it and then exits with `bytes_needed` reset to the minimum frame size. -/
theorem scanGo_packet_end (codec : Codec) (f : List Nat) (fuel skipped : Nat)
    (hne : f ≠ []) (hsof : isSOF f.headI = true)
    (hc : codec f = CodecResult.ok f.length) :
    scanGo codec (fuel + 1) f skipped =
      ⟨[f], (if 0 < skipped then [ErrEvent.resyncLeading skipped] else []),
        [], 0, VESC_MIN_FRAME_SIZE⟩ := by
  have hc' : codec (f ++ []) = CodecResult.ok f.length := by simpa using hc
  have h := scanGo_packet codec f [] fuel skipped hne hsof hc'
  rw [List.append_nil] at h
  rw [h, scanGo_nil]
  simp

/-- The scan loop over `frame ++ garbage ++ frame` (garbage marker-free, both
frames decodable at their positions): both frames are dispatched in order, with
a leading-garbage warning before each frame that bytes were skipped for. -/
theorem scanGo_two_frames (codec : Codec) (f1 g2 f2 : List Nat) (sk : Nat)
    (hf1 : f1 ≠ []) (hs1 : isSOF f1.headI = true)
    (hf2 : f2 ≠ []) (hs2 : isSOF f2.headI = true)
    (hg2 : ∀ b ∈ g2, isSOF b = false)
    (hc1 : codec (f1 ++ (g2 ++ f2)) = CodecResult.ok f1.length)
    (hc2 : codec f2 = CodecResult.ok f2.length)
    (fuel : Nat) (hfuel : g2.length + 1 ≤ fuel) :
    scanGo codec (fuel + 1) (f1 ++ (g2 ++ f2)) sk =
      ⟨[f1, f2],
        (if 0 < sk then [ErrEvent.resyncLeading sk] else []) ++
          (if 0 < g2.length then [ErrEvent.resyncLeading g2.length] else []),
        [], 0, VESC_MIN_FRAME_SIZE⟩ := by
  rw [scanGo_packet codec f1 (g2 ++ f2) fuel sk hf1 hs1 hc1]
  have hfuel2 : fuel = g2.length + (fuel - g2.length) := by omega
  rw [hfuel2, scanGo_nonmarker_run codec g2 (fuel - g2.length) f2 0 hg2]
  have hfuel3 : fuel - g2.length = (fuel - g2.length - 1) + 1 := by omega
  rw [Nat.zero_add, hfuel3,
    scanGo_packet_end codec f2 (fuel - g2.length - 1) g2.length hf2 hs2 hc2]

/-- A scan pass over a buffer that is exactly one decodable frame: the frame is
dispatched, no warnings fire, and the whole buffer is consumed. -/
theorem scanPass_single_frame (codec : Codec) (f : List Nat)
    (hne : f ≠ []) (hsof : isSOF f.headI = true)
    (hc : codec f = CodecResult.ok f.length) :
    scanPass codec f = ⟨[f], [], [], VESC_MIN_FRAME_SIZE, f.length, 0⟩ := by
  have hne' : f.isEmpty = false := by
    cases f with
    | nil => exact absurd rfl hne
    | cons a t => rfl
  simp [scanPass, hne', scanGo_packet_end codec f f.length 0 hne hsof hc]

/-- A scan pass never reports a mid-frame timeout. -/
theorem scanPass_timeout_count (codec : Codec) (buffer : List Nat) :
    (scanPass codec buffer).errors.count ErrEvent.midFrameTimeout = 0 := by
  cases hb : buffer.isEmpty with
  | true => simp [scanPass, hb]
  | false =>
    simp only [scanPass, hb, Bool.false_eq_true, if_false]
    rw [List.count_append, scanGo_timeout_count]
    by_cases hs : 0 < (scanGo codec (buffer.length + 1) buffer 0).skipped <;>
      simp [hs, List.count_cons]

/-- C6: when the accumulation buffer contains two complete valid frames
back-to-back, one scan pass (one loop iteration) dispatches both decoded
packets, in the order the frames appear in the byte stream, with no error
events. -/
theorem multi_frame_drain (codec : Codec) (f1 f2 : List Nat)
    (hf1 : f1 ≠ []) (hs1 : isSOF f1.headI = true)
    (hf2 : f2 ≠ []) (hs2 : isSOF f2.headI = true)
    (hc1 : codec (f1 ++ f2) = CodecResult.ok f1.length)
    (hc2 : codec f2 = CodecResult.ok f2.length) :
    (scanPass codec (f1 ++ f2)).packets = [f1, f2] ∧
    (scanPass codec (f1 ++ f2)).errors = [] := by
  have hne : (f1 ++ f2).isEmpty = false := by
    cases f1 with
    | nil => exact absurd rfl hf1
    | cons a t => rfl
  have hg : ∀ b ∈ ([] : List Nat), isSOF b = false := by simp
  have hfuel : ([] : List Nat).length + 1 ≤ (f1 ++ f2).length := by
    have hp1 := List.length_pos.mpr hf1
    simp only [List.length_nil, List.length_append]
    omega
  have h := scanGo_two_frames codec f1 [] f2 0 hf1 hs1 hf2 hs2 hg hc1 hc2
      ((f1 ++ f2).length) hfuel
  simp only [List.nil_append, List.length_append] at h
  constructor <;> simp [scanPass, hne, h]

/-- C6 witness: two concrete back-to-back frames under the demo codec. -/
theorem multi_frame_drain_witness :
    (scanPass demoCodec ([2, 1, 7, 0, 7, 3] ++ [2, 1, 7, 0, 7, 3])).packets =
      [[2, 1, 7, 0, 7, 3], [2, 1, 7, 0, 7, 3]] ∧
    (scanPass demoCodec ([2, 1, 7, 0, 7, 3] ++ [2, 1, 7, 0, 7, 3])).errors = [] :=
  multi_frame_drain demoCodec [2, 1, 7, 0, 7, 3] [2, 1, 7, 0, 7, 3]
    (by decide) (by decide) (by decide) (by decide) (by decide) (by decide)

/-- C2 counterexample: with the demo codec, take `garbage = [3]` — a span that
contains no decodable frame (its single decode attempt fails definitively) —
followed by a valid frame, `garbage2 = [9]`, and a second valid frame.  The
scan emits both packets in order, but the error callback fires three times, not
two: the definitive decode failure at the garbage marker byte is also reported,
so the warnings are not exactly the two resynchronization warnings the claim
allows. -/
theorem resync_two_frames_counterexample :
    demoCodec ([3] ++ ([2, 1, 7, 0, 7, 3] ++ ([9] ++ [2, 1, 7, 0, 7, 3]))) =
      CodecResult.err 0 "large frame decoding unsupported" ∧
    (scanPass demoCodec ([3] ++ ([2, 1, 7, 0, 7, 3] ++ ([9] ++ [2, 1, 7, 0, 7, 3])))).packets =
      [[2, 1, 7, 0, 7, 3], [2, 1, 7, 0, 7, 3]] ∧
    (scanPass demoCodec ([3] ++ ([2, 1, 7, 0, 7, 3] ++ ([9] ++ [2, 1, 7, 0, 7, 3])))).errors =
      [ErrEvent.codecError "large frame decoding unsupported",
        ErrEvent.resyncLeading 1, ErrEvent.resyncLeading 1] ∧
    (scanPass demoCodec ([3] ++ ([2, 1, 7, 0, 7, 3] ++ ([9] ++ [2, 1, 7, 0, 7, 3])))).errors ≠
      [ErrEvent.resyncLeading 1, ErrEvent.resyncLeading 1] := by
  decide

/-- C2 (amended): for a buffer `garbage ++ validFrame ++ garbage2 ++ validFrame2`
in which the garbage spans (possibly empty) contain no start-of-frame marker
bytes, the scan pass emits exactly the two decoded packets, in stream order, and
exactly one resynchronization warning per nonzero garbage span — reporting the
two garbage lengths respectively, in order — with no further error events. -/
theorem resync_two_frames_scan (codec : Codec) (g1 f1 g2 f2 : List Nat)
    (hg1 : ∀ b ∈ g1, isSOF b = false) (hg2 : ∀ b ∈ g2, isSOF b = false)
    (hf1 : f1 ≠ []) (hs1 : isSOF f1.headI = true)
    (hf2 : f2 ≠ []) (hs2 : isSOF f2.headI = true)
    (hc1 : codec (f1 ++ (g2 ++ f2)) = CodecResult.ok f1.length)
    (hc2 : codec f2 = CodecResult.ok f2.length) :
    (scanPass codec (g1 ++ (f1 ++ (g2 ++ f2)))).packets = [f1, f2] ∧
    (scanPass codec (g1 ++ (f1 ++ (g2 ++ f2)))).errors =
      (if 0 < g1.length then [ErrEvent.resyncLeading g1.length] else []) ++
        (if 0 < g2.length then [ErrEvent.resyncLeading g2.length] else []) := by
  have hne : (g1 ++ (f1 ++ (g2 ++ f2))).isEmpty = false := by
    cases hcase : g1 ++ (f1 ++ (g2 ++ f2)) with
    | nil =>
      have h2 := (List.append_eq_nil.mp hcase).2
      have h3 := (List.append_eq_nil.mp h2).1
      exact absurd h3 hf1
    | cons x xs => rfl
  have hlen : (g1 ++ (f1 ++ (g2 ++ f2))).length + 1
      = g1.length + ((f1 ++ (g2 ++ f2)).length + 1) := by
    simp only [List.length_append]
    omega
  have h1 : scanGo codec ((g1 ++ (f1 ++ (g2 ++ f2))).length + 1) (g1 ++ (f1 ++ (g2 ++ f2))) 0
      = scanGo codec ((f1 ++ (g2 ++ f2)).length + 1) (f1 ++ (g2 ++ f2)) g1.length := by
    rw [hlen]
    have h := scanGo_nonmarker_run codec g1 ((f1 ++ (g2 ++ f2)).length + 1) (f1 ++ (g2 ++ f2)) 0 hg1
    simpa using h
  have hfuel : g2.length + 1 ≤ (f1 ++ (g2 ++ f2)).length := by
    have hp1 := List.length_pos.mpr hf1
    have hp2 := List.length_pos.mpr hf2
    simp only [List.length_append]
    omega
  have h2 := scanGo_two_frames codec f1 g2 f2 g1.length hf1 hs1 hf2 hs2 hg2 hc1 hc2
      ((f1 ++ (g2 ++ f2)).length) hfuel
  simp only [List.length_append] at h1 h2
  constructor <;> simp [scanPass, hne, h1, h2]

/-- C2 witness: concrete garbage and frames under the demo codec. -/
theorem resync_two_frames_scan_witness :
    (scanPass demoCodec ([0] ++ ([2, 1, 7, 0, 7, 3] ++ ([9] ++ [2, 1, 7, 0, 7, 3])))).packets =
      [[2, 1, 7, 0, 7, 3], [2, 1, 7, 0, 7, 3]] ∧
    (scanPass demoCodec ([0] ++ ([2, 1, 7, 0, 7, 3] ++ ([9] ++ [2, 1, 7, 0, 7, 3])))).errors =
      [ErrEvent.resyncLeading 1, ErrEvent.resyncLeading 1] := by
  have h := resync_two_frames_scan demoCodec [0] [2, 1, 7, 0, 7, 3] [9] [2, 1, 7, 0, 7, 3]
    (by decide) (by decide) (by decide) (by decide) (by decide) (by decide)
    (by decide) (by decide)
  simpa using h

/-- C5: at a scan position whose byte is a recognized start-of-frame marker but
where the codec reports a definitive decode error (`bytes_needed = 0`), the
reader reports the codec's error message via the error callback and continues
the same pass at the next byte, with the skip distance grown by one. -/
theorem decode_error_advances_one (codec : Codec) (b : Nat) (rest : List Nat)
    (fuel skipped : Nat) (msg : String)
    (hb : isSOF b = true) (hc : codec (b :: rest) = CodecResult.err 0 msg) :
    scanGo codec (fuel + 1) (b :: rest) skipped =
      ⟨(scanGo codec fuel rest (skipped + 1)).packets,
        ErrEvent.codecError msg :: (scanGo codec fuel rest (skipped + 1)).errors,
        (scanGo codec fuel rest (skipped + 1)).remaining,
        (scanGo codec fuel rest (skipped + 1)).skipped,
        (scanGo codec fuel rest (skipped + 1)).bytesNeeded⟩ := by
  simp [scanGo, hb, hc]

/-- C5 witness: a large-frame marker the demo codec rejects definitively. -/
theorem decode_error_advances_one_witness :
    scanGo demoCodec 4 [3, 9] 1 =
      ⟨(scanGo demoCodec 3 [9] 2).packets,
        ErrEvent.codecError "large frame decoding unsupported" ::
          (scanGo demoCodec 3 [9] 2).errors,
        (scanGo demoCodec 3 [9] 2).remaining,
        (scanGo demoCodec 3 [9] 2).skipped,
        (scanGo demoCodec 3 [9] 2).bytesNeeded⟩ :=
  decode_error_advances_one demoCodec 3 [9] 3 1 "large frame decoding unsupported"
    (by decide) (by decide)

/-- C7: a valid frame delivered split across two reads, starting at the buffer's
beginning and split strictly inside the frame: the first iteration's scan breaks
on "need more data" and the read appends the remainder; the following scan pass
dispatches exactly one packet, and no error event fires in either pass. -/
theorem split_frame_one_packet (codec : Codec) (f : List Nat) (s k : Nat)
    (msg : String)
    (hne : f ≠ []) (hsof : isSOF f.headI = true)
    (h0 : 0 < s) (hs : s < f.length) (hk : 0 < k)
    (hcp : codec (f.take s) = CodecResult.err k msg)
    (hcf : codec f = CodecResult.ok f.length) :
    (rxIteration codec (f.take s) (f.drop s) 0).packets ++
      (scanPass codec (rxIteration codec (f.take s) (f.drop s) 0).buffer).packets = [f] ∧
    (rxIteration codec (f.take s) (f.drop s) 0).errors ++
      (scanPass codec (rxIteration codec (f.take s) (f.drop s) 0).buffer).errors = [] := by
  obtain ⟨a, t, rfl⟩ := List.exists_cons_of_ne_nil hne
  obtain ⟨s', rfl⟩ : ∃ s', s = s' + 1 := ⟨s - 1, by omega⟩
  have hsof' : isSOF a = true := by simpa [List.headI] using hsof
  have hs' : s' < t.length := by simpa [List.length_cons] using hs
  rw [List.take_succ_cons] at hcp
  have hA : scanPass codec (a :: List.take s' t) =
      ⟨[], [], a :: List.take s' t, k, 0, 0⟩ := by
    have hne2 : (a :: List.take s' t).isEmpty = false := rfl
    have hbreak := scanGo_break codec a (List.take s' t) (a :: List.take s' t).length 0
      k msg hsof' hcp hk
    simp only [List.length_cons, List.length_take] at hbreak
    simp [scanPass, hne2, hbreak]
  have hB : readPhase (a :: List.take s' t) k (List.drop s' t) 0 =
      ⟨a :: t, []⟩ := by
    simp [readPhase, List.take_append_drop, List.length_drop]
    intro
    omega
  have hC : scanPass codec (a :: t) =
      ⟨[a :: t], [], [], VESC_MIN_FRAME_SIZE, (a :: t).length, 0⟩ :=
    scanPass_single_frame codec (a :: t) (by simp) hsof hcf
  constructor <;>
    simp [rxIteration, List.take_succ_cons, List.drop_succ_cons, hA, hB, hC]

/-- C7 witness: a concrete frame split after its third byte. -/
theorem split_frame_one_packet_witness :
    (rxIteration demoCodec ([2, 1, 7, 0, 7, 3].take 3) ([2, 1, 7, 0, 7, 3].drop 3) 0).packets ++
      (scanPass demoCodec
        (rxIteration demoCodec ([2, 1, 7, 0, 7, 3].take 3) ([2, 1, 7, 0, 7, 3].drop 3) 0).buffer).packets =
      [[2, 1, 7, 0, 7, 3]] ∧
    (rxIteration demoCodec ([2, 1, 7, 0, 7, 3].take 3) ([2, 1, 7, 0, 7, 3].drop 3) 0).errors ++
      (scanPass demoCodec
        (rxIteration demoCodec ([2, 1, 7, 0, 7, 3].take 3) ([2, 1, 7, 0, 7, 3].drop 3) 0).buffer).errors =
      [] :=
  split_frame_one_packet demoCodec [2, 1, 7, 0, 7, 3] 3 3 "insufficient data for small frame"
    (by decide) (by decide) (by decide) (by decide) (by decide) (by decide) (by decide)

/-- C3 counterexample: a buffer holding one byte that is not a marker.  The
scan advances `iter` past it while `iter_begin` stays at the start, so the
claim says the byte is retained; the code's `buffer.erase(buffer.begin(), iter)`
drops the whole buffer (after reporting the discard). -/
theorem erase_iterBegin_counterexample :
    (scanPass demoCodec [0]).iterBeginPos = 0 ∧
    List.drop (scanPass demoCodec [0]).iterBeginPos [0] = [0] ∧
    (scanPass demoCodec [0]).buffer = [] ∧
    (scanPass demoCodec [0]).errors = [ErrEvent.resyncDiscard 1] := by
  decide

/-- C3 (amended): at the end of every scan pass, exactly the prefix
`[start, iter)` — up to the final scan position, which may lie strictly beyond
`iter_begin` — is removed from the buffer; the bytes at and after `iter` are
retained for the next pass, and whenever `iter_begin < iter` the pass's last
error event is the resynchronization warning reporting the
`iter - iter_begin` discarded bytes. -/
theorem erase_consumed_through_iter (codec : Codec) (buffer : List Nat) :
    (scanPass codec buffer).buffer =
      List.drop (scanPass codec buffer).iterPos buffer ∧
    (0 < (scanPass codec buffer).skipped →
      (scanPass codec buffer).errors.getLast? =
        some (ErrEvent.resyncDiscard (scanPass codec buffer).skipped)) := by
  cases hb : buffer.isEmpty with
  | true =>
    have : buffer = [] := by
      cases buffer with
      | nil => rfl
      | cons x xs => exact absurd hb (by simp)
    subst this
    simp [scanPass]
  | false =>
    simp only [scanPass, hb, Bool.false_eq_true, if_false]
    set g := scanGo codec (buffer.length + 1) buffer 0 with hgdef
    obtain ⟨t, ht⟩ := scanGo_suffix codec (buffer.length + 1) buffer 0
    rw [← hgdef] at ht
    constructor
    · rw [← ht, List.length_append, Nat.add_sub_cancel, List.drop_left]
    · intro hsk
      rw [if_pos hsk, List.getLast?_concat]

/-- C3 witness for the amended statement: two non-marker bytes are scanned
over, erased, and reported in the final discard warning. -/
theorem erase_consumed_through_iter_witness :
    (scanPass demoCodec [9, 9]).buffer =
      List.drop (scanPass demoCodec [9, 9]).iterPos [9, 9] ∧
    (scanPass demoCodec [9, 9]).errors.getLast? =
      some (ErrEvent.resyncDiscard (scanPass demoCodec [9, 9]).skipped) :=
  ⟨(erase_consumed_through_iter demoCodec [9, 9]).1,
    (erase_consumed_through_iter demoCodec [9, 9]).2 (by decide)⟩

/-- C8: when the read requested a positive number of bytes (the request is
`min(bytes_needed, 4096)`), returned zero bytes, and the accumulation buffer is
non-empty, the iteration reports exactly one mid-frame timeout warning and the
buffered bytes pass to the next iteration unchanged. -/
theorem timeout_midframe_warning (codec : Codec) (buffer : List Nat) (ecValue : Nat)
    (hreq : 0 < bytesToRead (scanPass codec buffer).bytesNeeded)
    (hbuf : (scanPass codec buffer).buffer ≠ []) :
    (rxIteration codec buffer [] ecValue).errors.count ErrEvent.midFrameTimeout = 1 ∧
    (rxIteration codec buffer [] ecValue).buffer = (scanPass codec buffer).buffer := by
  have hbn : 0 < (scanPass codec buffer).bytesNeeded := by
    have hle := Nat.min_le_left (scanPass codec buffer).bytesNeeded 4096
    unfold bytesToRead at hreq
    omega
  have hcond : 0 < (scanPass codec buffer).bytesNeeded ∧
      ([] : List Nat).length = 0 ∧ (scanPass codec buffer).buffer ++ [] ≠ [] :=
    ⟨hbn, rfl, by simpa using hbuf⟩
  constructor
  · simp only [rxIteration, readPhase, if_pos hcond]
    rw [List.count_append, List.count_append, scanPass_timeout_count]
    by_cases he : 0 < ecValue <;> simp [he, List.count_cons]
  · simp [rxIteration, readPhase]

/-- C8 witness: a buffered partial frame, an empty read, no serial error. -/
theorem timeout_midframe_warning_witness :
    (rxIteration demoCodec [2] [] 0).errors.count ErrEvent.midFrameTimeout = 1 ∧
    (rxIteration demoCodec [2] [] 0).buffer = (scanPass demoCodec [2]).buffer :=
  timeout_midframe_warning demoCodec [2] 0 (by decide) (by decide)

/-- C1 (evaluating the code at the failing input): starting disconnected, let
`serial_port_.open` succeed and a subsequent `set_option` call throw.  `connect`
re-throws the wrapped `SerialException`, no reader thread is started and
`rx_thread_run_` stays unset — but the port remains open, so `isConnected()` is
`true` afterwards: the system is left with a partially-configured open port
rather than fully disconnected. -/
theorem connect_configure_failure_leaves_port_open :
    (connect ⟨false, false, false⟩ "/dev/ttyACM0" true false ""
        "set_option: Invalid argument").thrown =
      some "Failed to open the serial port /dev/ttyACM0 to the VESC. set_option: Invalid argument" ∧
    isConnected (connect ⟨false, false, false⟩ "/dev/ttyACM0" true false ""
        "set_option: Invalid argument").state = true ∧
    (connect ⟨false, false, false⟩ "/dev/ttyACM0" true false ""
        "set_option: Invalid argument").state.rxThreadStarted = false ∧
    (connect ⟨false, false, false⟩ "/dev/ttyACM0" true false ""
        "set_option: Invalid argument").state.rxThreadRun = false := by
  decide

/-- C9: when the transport accepts fewer bytes than the frame's length, `send`
raises an exception to the caller (synchronously; the model has no error
callback channel in `send` at all) and performs exactly one write with no
retry. -/
theorem send_short_write_raises (frame : List Nat) (written : Nat)
    (hw : written < frame.length) :
    (send frame written).thrown.isSome = true ∧
    (send frame written).writeCalls = [written] := by
  have hne : written ≠ frame.length := Nat.ne_of_lt hw
  simp [send, hne]

/-- C9 witness: a three-byte frame of which only two bytes are written. -/
theorem send_short_write_raises_witness :
    (send [2, 0, 3] 2).thrown.isSome = true ∧
    (send [2, 0, 3] 2).writeCalls = [2] :=
  send_short_write_raises [2, 0, 3] 2 (by decide)

/-- C10: every failure inside `send` — here the short-write `SerialException`
that `send` itself raises — is caught by `send`'s own `catch` block and
re-thrown wrapped in a message that begins with the port-open failure text,
with the original error text appended. -/
theorem send_error_wrapped_as_open_failure (frame : List Nat) (written : Nat)
    (hw : written ≠ frame.length) :
    (send frame written).thrown =
      some (sendWrapMsg (shortWriteMsg written frame.length)) ∧
    sendWrapMsg (shortWriteMsg written frame.length) =
      "Failed to open the serial port to the VESC. " ++
        shortWriteMsg written frame.length :=
  ⟨by simp [send, hw], rfl⟩

/-- C10 witness: the wrapped message for a concrete short write. -/
theorem send_error_wrapped_as_open_failure_witness :
    (send [2, 0, 3] 2).thrown =
      some (sendWrapMsg (shortWriteMsg 2 3)) ∧
    sendWrapMsg (shortWriteMsg 2 3) =
      "Failed to open the serial port to the VESC. " ++ shortWriteMsg 2 3 := by
  have h := send_error_wrapped_as_open_failure [2, 0, 3] 2 (by decide)
  simpa using h

end VescDriver
